import Mathlib

/-!
Verification of the companion-cube activity engine.

This file gives a shallow embedding of the multi-timeframe activity
classification and intervention-scheduling engine:

* `event_processor.py` — `EventProcessor`: window/web/afk event
  summarisation (`_summarize_window_events`, `_summarize_web_events`,
  `_is_currently_afk`, `_determine_behavior_pattern`,
  `filter_and_summarize_data`, `create_behavior_comparison`) together
  with the static keyword taxonomy (`distraction_apps`,
  `distraction_domains`, `productivity_apps`) and the categorisation
  helpers.
* `companion_main.py` — `CompanionCube.should_intervene` and the
  caller-side update of `last_intervention` in `check_activity`.

Modelling conventions: Python floats are modelled as rationals (ℚ);
timestamps are rationals; Python dicts that are iterated over are
modelled as insertion-ordered association lists (Python 3.7+ dict
semantics); `None` becomes `Option`.  Fallible or external behaviour
(HTTP, LLM calls, file I/O) is outside the embedded core, matching the
spec's scope.
-/

namespace CompanionCube

/-- `isPrefixChars pat l` is true when `pat` is an initial segment of `l`
(character-by-character comparison). -/
def isPrefixChars : List Char → List Char → Bool
  | [], _ => true
  | _ :: _, [] => false
  | a :: as, b :: bs => a == b && isPrefixChars as bs

/-- `containsChars pat hay` is true when `pat` occurs contiguously inside
`hay`; together with `strIn` this mirrors Python's `pat in hay` test on
strings. -/
def containsChars (pat : List Char) : List Char → Bool
  | [] => isPrefixChars pat []
  | b :: t => isPrefixChars pat (b :: t) || containsChars pat t

/-- Python's substring test `pat in hay`. -/
def strIn (pat hay : String) : Bool :=
  containsChars pat.toList hay.toList

/-- Python's `str.lower()`, character by character. -/
def lowerStr (s : String) : String :=
  String.mk (s.toList.map Char.toLower)

/-! ### Static keyword taxonomy (`EventProcessor.__init__`) -/

/-- `self.distraction_apps` from `EventProcessor.__init__`. -/
def distraction_apps : List (String × List String) :=
  [("social", ["facebook", "twitter", "instagram", "tiktok", "snapchat", "discord", "slack"]),
   ("video", ["youtube", "netflix", "twitch", "hulu", "prime video"]),
   ("news", ["reddit", "news", "cnn", "bbc", "hackernews"]),
   ("games", ["steam", "game", "minecraft", "fortnite", "league of legends"])]

/-- `self.distraction_domains` from `EventProcessor.__init__`. -/
def distraction_domains : List (String × List String) :=
  [("social", ["facebook.com", "twitter.com", "instagram.com", "tiktok.com", "discord.com"]),
   ("video", ["youtube.com", "netflix.com", "twitch.tv", "hulu.com"]),
   ("news", ["reddit.com", "news.ycombinator.com", "cnn.com", "bbc.com"]),
   ("games", ["store.steampowered.com", "twitch.tv/directory/gaming"])]

/-- `self.productivity_apps` from `EventProcessor.__init__`. -/
def productivity_apps : List (String × List String) :=
  [("coding", ["code", "visual studio", "vim", "emacs", "sublime", "atom", "pycharm", "intellij", "terminal"]),
   ("writing", ["word", "docs", "notion", "obsidian", "notepad", "typora", "scrivener"]),
   ("design", ["photoshop", "illustrator", "figma", "sketch", "canva"]),
   ("research", ["chrome", "firefox", "safari", "edge", "brave"])]

/-- `self.focus_threshold_minutes` from `EventProcessor.__init__`. -/
def focus_threshold_minutes : ℚ := 15

/-- First category of `table` one of whose keywords occurs in `name`
(`name` is assumed already lower-cased by the caller), scanning the table
in insertion order as the Python `for category, apps in ... .items()`
loops do. -/
def findCategory (table : List (String × List String)) (name : String) : Option String :=
  match table with
  | [] => none
  | (cat, kws) :: rest =>
      if kws.any (fun k => strIn k name) then some cat else findCategory rest name

/-- `EventProcessor._categorize_app`: productivity categories are checked
before distraction categories; otherwise `"neutral"`. -/
def categorize_app (app : String) : String :=
  let app_lower := lowerStr app
  match findCategory productivity_apps app_lower with
  | some c => "productive_" ++ c
  | none =>
      match findCategory distraction_apps app_lower with
      | some c => "distraction_" ++ c
      | none => "neutral"

/-- `EventProcessor._is_distraction_app`: some distraction keyword occurs
in the lower-cased app name. -/
def is_distraction_app (app : String) : Bool :=
  let app_lower := lowerStr app
  ((distraction_apps.map Prod.snd).flatten).any (fun k => strIn k app_lower)

/-- `EventProcessor._is_distraction_domain`. -/
def is_distraction_domain (domain : String) : Bool :=
  let domain_lower := lowerStr domain
  ((distraction_domains.map Prod.snd).flatten).any (fun k => strIn k domain_lower)

/-- `EventProcessor._categorize_domain`. -/
def categorize_domain (domain : String) : String :=
  let domain_lower := lowerStr domain
  match findCategory distraction_domains domain_lower with
  | some c => "distraction_" ++ c
  | none => "neutral"

/-- The characters after the first `"://"`, when one occurs. -/
def dropScheme : List Char → Option (List Char)
  | [] => none
  | ':' :: '/' :: '/' :: rest => some rest
  | _ :: t => dropScheme t

/-- `EventProcessor._extract_domain`: the network location of the URL
(`urlparse(url).netloc`, modelled here for URLs of the shape
`scheme://host[/path][?query][#fragment]`: the characters between the
first `"://"` and the next `/`, `?` or `#`; a URL with no `"://"` has an
empty netloc), with a leading `www.` stripped. -/
def extract_domain (url : String) : String :=
  match dropScheme url.toList with
  | none => ""
  | some rest =>
      let netloc := rest.takeWhile (fun c => !(c == '/' || c == '?' || c == '#'))
      if isPrefixChars "www.".toList netloc then String.mk (netloc.drop 4)
      else String.mk netloc

/-! ### Raw events (ActivityWatch bucket rows) -/

/-- A window-watcher event: `{timestamp, duration (seconds),
data: {app, title}}`. -/
structure WindowEvent where
  timestamp : ℚ
  duration : ℚ
  app : String
  title : String
deriving DecidableEq

/-- A web-watcher event: `{timestamp, duration (seconds),
data: {url, title}}`. -/
structure WebEvent where
  timestamp : ℚ
  duration : ℚ
  url : String
  title : String
deriving DecidableEq

/-- An AFK-watcher event: `{timestamp, data: {status}}`. -/
structure AfkEvent where
  timestamp : ℚ
  status : String
deriving DecidableEq

/-! ### Intervention scheduler (`companion_main.py`) -/

/-- `self.intervention_cooldown` from `CompanionCube.__init__`
(per-state cooldown minutes). -/
def intervention_cooldown : List (String × ℚ) :=
  [("flow", 45), ("working", 15), ("needs_nudge", 5), ("afk", 0)]

/-- Python `dict.get(key, default)` on a string-keyed table. -/
def dictGetD (d : List (String × ℚ)) (k : String) (v : ℚ) : ℚ :=
  match d.find? (fun p => p.1 == k) with
  | some p => p.2
  | none => v

/-- `CompanionCube.should_intervene`.  The method reads
`datetime.now(timezone.utc)` internally; the embedding makes that clock
reading the explicit argument `now`, and `last_intervention` is the
stored `self.last_intervention`.  `time_since_last` is the elapsed time
in minutes. -/
def should_intervene (mode : String) (user_state : String)
    (now last_intervention : ℚ) : Bool :=
  if mode == "ghost" then false
  else
    let time_since_last := now - last_intervention
    let cooldown := dictGetD intervention_cooldown user_state 15
    if time_since_last < cooldown then false
    else if mode == "coach" then
      (["needs_nudge", "working", "afk"]).contains user_state
    else if mode == "study_buddy" then true
    else if mode == "weekend" then user_state == "needs_nudge"
    else false

/-- The caller-side update of `self.last_intervention` performed at the
end of `CompanionCube.check_activity`: the timestamp is reset to `now`
only when the decision was to intervene (otherwise `check_activity`
returns before reaching the update). -/
def check_activity_last (mode user_state : String) (now last_intervention : ℚ) : ℚ :=
  if should_intervene mode user_state now last_intervention then now
  else last_intervention

/-- Cooldown table of the spec's intervention-scheduler contract:
flow=45, working=15, needs_nudge=5, afk=0, any unknown state 15. -/
def cooldownSpec (state : String) : ℚ :=
  if state = "flow" then 45
  else if state = "working" then 15
  else if state = "needs_nudge" then 5
  else if state = "afk" then 0
  else 15

/-- The spec's decision table, transcribed from the claim: ghost never
intervenes; below cooldown never intervenes; coach intervenes exactly on
needs_nudge/working/afk; study_buddy always; weekend exactly on
needs_nudge; any other mode never. -/
def interveneSpec (mode state : String) (elapsed : ℚ) : Bool :=
  if mode = "ghost" then false
  else if elapsed < cooldownSpec state then false
  else if mode = "coach" then
    decide (state = "needs_nudge" ∨ state = "working" ∨ state = "afk")
  else if mode = "study_buddy" then true
  else if mode = "weekend" then decide (state = "needs_nudge")
  else false

/-! ### Window-event summarisation (`EventProcessor._summarize_window_events`) -/

/-- One entry of `focus_sessions`:
`{'app', 'duration_minutes', 'start_time', 'category'}`. -/
structure FocusSession where
  app : String
  duration_minutes : ℚ
  start_time : Option ℚ
  category : String
deriving DecidableEq

/-- One entry of `distractions`:
`{'type', 'name', 'duration_minutes', 'category'}`; the Python key
`type` is rendered `kind` here. -/
structure Distraction where
  kind : String
  name : String
  duration_minutes : ℚ
  category : String
deriving DecidableEq

/-- `defaultdict(float)` update `d[k] += v` on an insertion-ordered
association list: a new key is appended at the end (Python 3.7+ dict
order). -/
def bumpDur (l : List (String × ℚ)) (k : String) (v : ℚ) : List (String × ℚ) :=
  match l with
  | [] => [(k, v)]
  | (k0, v0) :: t => if k0 = k then (k0, v0 + v) :: t else (k0, v0) :: bumpDur t k v

/-- Total of the values of a duration table (Python
`sum(d.values())`). -/
def durTotal (l : List (String × ℚ)) : ℚ :=
  (l.map Prod.snd).sum

/-- `if title not in titles[k]: titles[k].append(title)` on a
`defaultdict(list)` modelled as an insertion-ordered association list
(the guard `if title` is checked by the caller). -/
def addTitle (l : List (String × List String)) (k : String) (title : String) :
    List (String × List String) :=
  match l with
  | [] => [(k, [title])]
  | (k0, ts) :: t =>
      if k0 = k then (k0, if ts.contains title then ts else ts ++ [title]) :: t
      else (k0, ts) :: addTitle t k title

/-- The loop state of `_summarize_window_events`: accumulated tables plus
the `current_app` / `session_start` / `session_duration` accumulator. -/
structure WinState where
  app_durations : List (String × ℚ)
  app_titles : List (String × List String)
  focus_sessions : List FocusSession
  app_switches : ℕ
  current_app : Option String
  session_start : Option ℚ
  session_duration : ℚ
deriving DecidableEq

/-- Initial loop state (`current_app = None`, empty tables). -/
def initWinState : WinState :=
  ⟨[], [], [], 0, none, none, 0⟩

/-- One iteration of the `for i, event in enumerate(events)` loop of
`_summarize_window_events`: lower-case the app name, convert the
duration to minutes, skip events shorter than 3 seconds, bump the usage
tables for a truthy app, then either close the previous same-app run
(emitting a focus session when it reached the threshold and counting an
app switch) or extend it. -/
def winStep (s : WinState) (e : WindowEvent) : WinState :=
  let app := (lowerStr e.app)
  let duration := e.duration / 60
  if duration < 0.05 then s
  else
    let durations2 :=
      if app ≠ "" then bumpDur s.app_durations app duration else s.app_durations
    let titles2 :=
      if app ≠ "" ∧ e.title ≠ "" then addTitle s.app_titles app e.title
      else s.app_titles
    if s.current_app ≠ some app then
      { app_durations := durations2,
        app_titles := titles2,
        focus_sessions :=
          match s.current_app with
          | some prev =>
              if prev ≠ "" ∧ s.session_duration ≥ focus_threshold_minutes then
                s.focus_sessions ++
                  [⟨prev, s.session_duration, s.session_start, categorize_app prev⟩]
              else s.focus_sessions
          | none => s.focus_sessions,
        app_switches :=
          match s.current_app with
          | some _ => s.app_switches + 1
          | none => s.app_switches,
        current_app := some app,
        session_start := some e.timestamp,
        session_duration := duration }
    else
      { s with
        app_durations := durations2,
        app_titles := titles2,
        session_duration := s.session_duration + duration }

/-- The fields returned by `_summarize_window_events` that the verified
properties reference (`app_summary`'s top-5 truncation and
`key_activities` are presentation-only projections of `app_durations` /
`app_titles` and are not modelled separately). -/
structure WindowSummaryPart where
  active_time_minutes : ℚ
  app_durations : List (String × ℚ)
  app_titles : List (String × List String)
  focus_sessions : List FocusSession
  distractions : List Distraction
  app_switches : ℕ
deriving DecidableEq

/-- The timestamp comparison used by
`events.sort(key=lambda x: x['timestamp'])` (a stable sort, modelled by
`List.mergeSort`, which is also stable). -/
def tsLeB (a b : WindowEvent) : Bool :=
  decide (a.timestamp ≤ b.timestamp)

/-- The part of `_summarize_window_events` after the in-place sort: run
the grouping loop over the (time-ordered) events, close the final
session, and derive totals and per-entity distraction episodes (total
app duration strictly above 2 minutes and a distraction keyword
match). -/
def summarize_sorted_window_events (events : List WindowEvent) : WindowSummaryPart :=
  let s0 := events.foldl winStep initWinState
  let s : WinState :=
    match s0.current_app with
    | some prev =>
        if prev ≠ "" ∧ s0.session_duration ≥ focus_threshold_minutes then
          { s0 with
            focus_sessions := s0.focus_sessions ++
              [⟨prev, s0.session_duration, s0.session_start, categorize_app prev⟩] }
        else s0
    | none => s0
  { active_time_minutes := durTotal s.app_durations,
    app_durations := s.app_durations,
    app_titles := s.app_titles,
    focus_sessions := s.focus_sessions,
    distractions :=
      (s.app_durations.filter
        (fun p => is_distraction_app p.1 && decide (p.2 > 2))).map
        (fun p => ⟨"app", p.1, p.2, categorize_app p.1⟩),
    app_switches := s.app_switches }

/-- `EventProcessor._summarize_window_events`: sort by timestamp, then
summarise. -/
def summarize_window_events (events : List WindowEvent) : WindowSummaryPart :=
  summarize_sorted_window_events (events.mergeSort tsLeB)

/-! ### Web-event summarisation (`EventProcessor._summarize_web_events`) -/

/-- The loop state of `_summarize_web_events`. -/
structure WebState where
  domain_durations : List (String × ℚ)
  domain_titles : List (String × List String)
  distractions : List Distraction
deriving DecidableEq

/-- One iteration of the `for event in events` loop of
`_summarize_web_events`: for a truthy url, bump the domain tables and —
inside the per-event loop — append a distraction entry whenever this
single event's duration exceeds 1 minute on a distraction domain. -/
def webStep (s : WebState) (e : WebEvent) : WebState :=
  let duration := e.duration / 60
  if e.url ≠ "" then
    let domain := extract_domain e.url
    { domain_durations := bumpDur s.domain_durations domain duration,
      domain_titles := if e.title ≠ "" then addTitle s.domain_titles domain e.title
                       else s.domain_titles,
      distractions :=
        if is_distraction_domain domain ∧ duration > 1 then
          s.distractions ++ [⟨"web", domain, duration, categorize_domain domain⟩]
        else s.distractions }
  else s

/-- The fields returned by `_summarize_web_events` (the top-5
`domain_summary` truncation is a presentation-only projection of
`domain_durations`). -/
structure WebSummary where
  domain_durations : List (String × ℚ)
  domain_titles : List (String × List String)
  distractions : List Distraction
  total_web_time : ℚ
deriving DecidableEq

/-- `EventProcessor._summarize_web_events` (web events are not
sorted). -/
def summarize_web_events (events : List WebEvent) : WebSummary :=
  let s := events.foldl webStep ⟨[], [], []⟩
  ⟨s.domain_durations, s.domain_titles, s.distractions, durTotal s.domain_durations⟩

/-! ### AFK status (`EventProcessor._is_currently_afk`) -/

/-- `EventProcessor._is_currently_afk`: false on an empty list; otherwise
the status of `max(afk_events, key=lambda x: x['timestamp'])` — Python's
`max` keeps the first element among equal keys, hence the
strictly-greater comparison — equals `"afk"`. -/
def is_currently_afk (afk_events : List AfkEvent) : Bool :=
  match afk_events with
  | [] => false
  | h :: t =>
      let latest := t.foldl (fun best e => if best.timestamp < e.timestamp then e else best) h
      latest.status == "afk"

/-! ### Per-timeframe summary (`EventProcessor.filter_and_summarize_data`) -/

/-- The raw events of one timeframe
(`multi_timeframe_data[timeframe]`). -/
structure TimeframeData where
  window : List WindowEvent
  web : List WebEvent
  afk : List AfkEvent
deriving DecidableEq

/-- The summary dict built by `filter_and_summarize_data` for one
timeframe (the fields the verified properties reference). -/
structure Summary where
  is_afk : Bool
  active_time_minutes : ℚ
  app_durations : List (String × ℚ)
  app_titles : List (String × List String)
  web_summary : Option WebSummary
  focus_sessions : List FocusSession
  distractions : List Distraction
  app_switches : ℕ
  behavior_pattern : String
deriving DecidableEq

/-- Sum of `d['duration_minutes']` over a distraction list. -/
def distraction_minutes (ds : List Distraction) : ℚ :=
  (ds.map Distraction.duration_minutes).sum

/-- `EventProcessor._determine_behavior_pattern`: reads `is_afk`,
`active_time_minutes`, `app_switches`, `focus_sessions` and
`distractions` off the summary; with zero (or negative) active time both
rates are set to 0 instead of dividing. -/
def determine_behavior_pattern (summary : Summary) : String :=
  if summary.is_afk then "away"
  else
    let active_time := summary.active_time_minutes
    let switch_rate : ℚ :=
      if active_time > 0 then (summary.app_switches : ℚ) / active_time else 0
    let distraction_ratio : ℚ :=
      if active_time > 0 then distraction_minutes summary.distractions / active_time
      else 0
    if summary.focus_sessions.length > 0 ∧ switch_rate < 0.2 then "focused_work"
    else if distraction_ratio > 0.5 then "heavily_distracted"
    else if switch_rate > 0.5 then "context_switching"
    else if active_time < 5 then "light_activity"
    else "normal_work"

/-- One iteration of the timeframe loop of `filter_and_summarize_data`,
before `behavior_pattern` is filled in: start from the default summary
dict, overlay the window-event summary when window events exist, overlay
the web summary (merging its distractions) when web events exist. -/
def summarize_timeframe_pre (d : TimeframeData) : Summary :=
  let base : Summary :=
    { is_afk := is_currently_afk d.afk,
      active_time_minutes := 0,
      app_durations := [],
      app_titles := [],
      web_summary := none,
      focus_sessions := [],
      distractions := [],
      app_switches := 0,
      behavior_pattern := "" }
  let s1 :=
    match d.window with
    | [] => base
    | _ =>
        let w := summarize_window_events d.window
        { base with
          active_time_minutes := w.active_time_minutes,
          app_durations := w.app_durations,
          app_titles := w.app_titles,
          focus_sessions := w.focus_sessions,
          distractions := w.distractions,
          app_switches := w.app_switches }
  let s2 :=
    match d.web with
    | [] => s1
    | _ =>
        let w := summarize_web_events d.web
        { s1 with
          web_summary := some w,
          distractions := s1.distractions ++ w.distractions }
  s2

/-- One iteration of the timeframe loop of `filter_and_summarize_data`:
the pre-summary with `behavior_pattern` filled in by
`_determine_behavior_pattern`. -/
def summarize_timeframe (d : TimeframeData) : Summary :=
  { summarize_timeframe_pre d with
    behavior_pattern := determine_behavior_pattern (summarize_timeframe_pre d) }

/-- `EventProcessor.filter_and_summarize_data`: the summary of every
timeframe, keyed like the input. -/
def filter_and_summarize_data (data : List (String × TimeframeData)) :
    List (String × Summary) :=
  data.map (fun p => (p.1, summarize_timeframe p.2))

/-! ### Cross-timeframe comparison (`EventProcessor.create_behavior_comparison`) -/

/-- The comparison dict (`recommendations`, always `[]`, is omitted). -/
structure Comparison where
  trend : String
  focus_trend : String
  distraction_trend : String
  current_state : String
deriving DecidableEq

/-- `summaries.get(key, {}).get('focus_sessions', [])` length. -/
def getFocusCount (summaries : List (String × Summary)) (k : String) : ℕ :=
  match summaries.find? (fun p => p.1 == k) with
  | some p => p.2.focus_sessions.length
  | none => 0

/-- `summaries.get(key, {}).get('distractions', [])` length. -/
def getDistractionCount (summaries : List (String × Summary)) (k : String) : ℕ :=
  match summaries.find? (fun p => p.1 == k) with
  | some p => p.2.distractions.length
  | none => 0

/-- `summaries.get(key, {}).get('behavior_pattern', '')`. -/
def getPattern (summaries : List (String × Summary)) (k : String) : String :=
  match summaries.find? (fun p => p.1 == k) with
  | some p => p.2.behavior_pattern
  | none => ""

/-- The focus-trend branch of `create_behavior_comparison`, as a function
of the two focus-session counts; `older_focus` is plain integer
subtraction (Python ints), with no flooring at 0. -/
def focus_trend_calc (recent_focus thirty_focus : ℕ) : String :=
  let older_focus : ℤ := (thirty_focus : ℤ) - (recent_focus : ℤ)
  if recent_focus > 0 ∧ older_focus = 0 then "entering_focus"
  else if recent_focus = 0 ∧ older_focus > 0 then "losing_focus"
  else if recent_focus > 0 then "maintaining_focus"
  else "no_focus"

/-- The current-state branch of `create_behavior_comparison`, as a
function of the 5-minute behavior pattern. -/
def state_of_pattern (recent_pattern : String) : String :=
  if recent_pattern = "focused_work" then "flow"
  else if recent_pattern = "heavily_distracted" then "needs_nudge"
  else if recent_pattern = "context_switching" then "needs_nudge"
  else if recent_pattern = "away" then "afk"
  else "working"

/-- `EventProcessor.create_behavior_comparison`: focus trend from the
5-minute vs 30-minute focus-session counts, distraction trend from the
5-minute vs 10-minute distraction counts, current state from the
5-minute behavior pattern. -/
def create_behavior_comparison (summaries : List (String × Summary)) : Comparison :=
  let recent_focus := getFocusCount summaries "5_minutes"
  let thirty_focus := getFocusCount summaries "30_minutes"
  let rd := getDistractionCount summaries "5_minutes"
  let td := getDistractionCount summaries "10_minutes"
  let distraction_trend :=
    if (rd : ℚ) > (td : ℚ) * 0.5 then "increasing"
    else if (rd : ℚ) < (td : ℚ) * 0.2 then "decreasing"
    else "stable"
  { trend := "",
    focus_trend := focus_trend_calc recent_focus thirty_focus,
    distraction_trend := distraction_trend,
    current_state := state_of_pattern (getPattern summaries "5_minutes") }

/-! ### Spec-side definitions (transcribed from the claims, for
refinement comparisons) -/

/-- The behaviour-pattern rule as the claim states it: first-match-wins
in the stated order, with division by zero active minutes
short-circuiting to `light_activity`. -/
def behaviorPatternSpec (is_afk : Bool) (active_minutes : ℚ)
    (focus_count transition_count : ℕ) (distraction_sum : ℚ) : String :=
  if is_afk then "away"
  else if active_minutes = 0 then "light_activity"
  else if focus_count > 0 ∧ (transition_count : ℚ) / active_minutes < 0.2 then
    "focused_work"
  else if distraction_sum / active_minutes > 0.5 then "heavily_distracted"
  else if (transition_count : ℚ) / active_minutes > 0.5 then "context_switching"
  else if active_minutes < 5 then "light_activity"
  else "normal_work"

/-- The focus-trend rule as the claim states it: `older` is the
30-minute count minus the recent count, floored at 0. -/
def focusTrendFloorSpec (recent_focus thirty_focus : ℕ) : String :=
  let older_focus : ℤ := max ((thirty_focus : ℤ) - (recent_focus : ℤ)) 0
  if recent_focus > 0 ∧ older_focus = 0 then "entering_focus"
  else if recent_focus = 0 ∧ older_focus > 0 then "losing_focus"
  else if recent_focus > 0 then "maintaining_focus"
  else "no_focus"

/-- Total duration, in minutes, of a list of window events. -/
def totalMinutes (es : List WindowEvent) : ℚ :=
  (es.map (fun e => e.duration / 60)).sum

/-- The complement of the short-event skip of
`_summarize_window_events`: events kept by the loop. -/
def aboveFloorB (e : WindowEvent) : Bool :=
  !(decide (e.duration / 60 < 0.05))

/-- The per-event web distraction rule actually implemented by
`_summarize_web_events`: one entry per event with a truthy url whose own
duration exceeds 1 minute on a distraction domain. -/
def webDistractionsPerEvent (events : List WebEvent) : List Distraction :=
  (events.filter (fun e =>
      decide (e.url ≠ "") && is_distraction_domain (extract_domain e.url) &&
        decide (e.duration / 60 > 1))).map
    (fun e => ⟨"web", extract_domain e.url, e.duration / 60,
      categorize_domain (extract_domain e.url)⟩)

/-- The aggregate invariant maintained by the grouping loop of
`_summarize_window_events`: total tabled minutes are nonnegative, the
running session never exceeds the tabled total while its app is truthy,
and once a focus session exists the tabled total is at least the focus
threshold. -/
def WinInv (s : WinState) : Prop :=
  0 ≤ durTotal s.app_durations ∧
  (∀ a, s.current_app = some a → a ≠ "" →
    s.session_duration ≤ durTotal s.app_durations) ∧
  (s.focus_sessions ≠ [] → focus_threshold_minutes ≤ durTotal s.app_durations)

/-! ## Theorems -/

theorem dictGetD_cooldown_eq (s : String) :
    dictGetD intervention_cooldown s 15 = cooldownSpec s := by
  by_cases h1 : s = "flow"
  · subst h1; rfl
  by_cases h2 : s = "working"
  · subst h2; rfl
  by_cases h3 : s = "needs_nudge"
  · subst h3; rfl
  by_cases h4 : s = "afk"
  · subst h4; rfl
  have e1 : ("flow" == s) = false := beq_eq_false_iff_ne.mpr (fun h => h1 h.symm)
  have e2 : ("working" == s) = false := beq_eq_false_iff_ne.mpr (fun h => h2 h.symm)
  have e3 : ("needs_nudge" == s) = false := beq_eq_false_iff_ne.mpr (fun h => h3 h.symm)
  have e4 : ("afk" == s) = false := beq_eq_false_iff_ne.mpr (fun h => h4 h.symm)
  simp [dictGetD, intervention_cooldown, cooldownSpec, List.find?, e1, e2, e3, e4,
    h1, h2, h3, h4]

/-- C1: for every state (known or unknown), every mode, every clock
reading and last-intervention timestamp, `should_intervene` follows the
spec's decision table with elapsed minutes `now - last`. -/
theorem C1_should_intervene_follows_spec_table
    (mode state : String) (now last : ℚ) :
    should_intervene mode state now last = interveneSpec mode state (now - last) := by
  simp only [should_intervene, interveneSpec, dictGetD_cooldown_eq, beq_iff_eq]
  split
  · rfl
  · split
    · rfl
    · by_cases hc : mode = "coach" <;>
        by_cases hs : mode = "study_buddy" <;>
        by_cases hw : mode = "weekend" <;>
        simp_all [List.contains, List.elem_eq_mem, List.mem_cons, List.not_mem_nil,
          Bool.beq_eq_decide_eq]

/-- Python's `max(events, key=timestamp)` (the fold kept by
`is_currently_afk`) returns the element whose timestamp is strictly
above every other element's. -/
theorem foldl_latest_eq (e : AfkEvent) :
    ∀ (t : List AfkEvent) (best : AfkEvent),
      (best = e ∨ e ∈ t) →
      (∀ x, (x = best ∨ x ∈ t) → x ≠ e → x.timestamp < e.timestamp) →
      t.foldl (fun b ev => if b.timestamp < ev.timestamp then ev else b) best = e := by
  intro t
  induction t with
  | nil =>
      intro best hmem _
      rcases hmem with h | h
      · simpa using h
      · simp at h
  | cons a t ih =>
      intro best hmem hlt
      simp only [List.foldl_cons]
      apply ih
      · by_cases het : e ∈ t
        · exact Or.inr het
        · left
          rcases hmem with rfl | hmem2
          · by_cases hae : a = best
            · subst hae; simp
            · have ha : a.timestamp < best.timestamp :=
                hlt a (Or.inr (List.mem_cons_self a t)) hae
              rw [if_neg (not_lt.mpr ha.le)]
          · have hea : a = e := by
              rcases List.mem_cons.mp hmem2 with h | h
              · exact h.symm
              · exact absurd h het
            subst hea
            by_cases hbe : best = a
            · subst hbe; simp
            · have hb : best.timestamp < a.timestamp := hlt best (Or.inl rfl) hbe
              rw [if_pos hb]
      · intro x hx hxe
        apply hlt x _ hxe
        rcases hx with rfl | hx2
        · by_cases hb : best.timestamp < a.timestamp
          · rw [if_pos hb]
            exact Or.inr (List.mem_cons_self a t)
          · rw [if_neg hb]
            exact Or.inl rfl
        · exact Or.inr (List.mem_cons_of_mem a hx2)

/-- C7: `is_currently_afk` is false on the empty list, and on any list
whose greatest-timestamp event is unique it is true exactly when that
event's status is `"afk"`. -/
theorem C7_is_afk_latest_event :
    (is_currently_afk [] = false) ∧
    ∀ (es : List AfkEvent) (e : AfkEvent), e ∈ es →
      (∀ e2 ∈ es, e2 ≠ e → e2.timestamp < e.timestamp) →
      (is_currently_afk es = true ↔ e.status = "afk") := by
  constructor
  · rfl
  · intro es e hmem hlt
    cases es with
    | nil => simp at hmem
    | cons h t =>
        have hfold :
            t.foldl (fun b ev => if b.timestamp < ev.timestamp then ev else b) h = e := by
          apply foldl_latest_eq
          · rcases List.mem_cons.mp hmem with h1 | h1
            · exact Or.inl h1.symm
            · exact Or.inr h1
          · intro x hx hxe
            apply hlt x _ hxe
            rcases hx with rfl | hx2
            · exact List.mem_cons_self _ _
            · exact List.mem_cons_of_mem _ hx2
        simp [is_currently_afk, hfold, beq_iff_eq]

/-- C7 witness: two events, the later one AFK. -/
theorem C7_witness :
    is_currently_afk [⟨3, "not-afk"⟩, ⟨7, "afk"⟩] = true := by
  have h := C7_is_afk_latest_event.2 [⟨3, "not-afk"⟩, ⟨7, "afk"⟩] ⟨7, "afk"⟩
    (by decide) (by decide)
  exact h.mpr rfl

/-- C3: the behaviour-pattern → current-state mapping used by
`create_behavior_comparison` is total and deterministic over all pattern
strings: focused_work→flow, heavily_distracted→needs_nudge,
context_switching→needs_nudge, away→afk, anything else→working, and the
result is always one of the four states. -/
theorem C3_current_state_total_mapping (p : String) :
    (p = "focused_work" → state_of_pattern p = "flow") ∧
    (p = "heavily_distracted" → state_of_pattern p = "needs_nudge") ∧
    (p = "context_switching" → state_of_pattern p = "needs_nudge") ∧
    (p = "away" → state_of_pattern p = "afk") ∧
    (p ≠ "focused_work" → p ≠ "heavily_distracted" → p ≠ "context_switching" →
      p ≠ "away" → state_of_pattern p = "working") ∧
    (state_of_pattern p = "flow" ∨ state_of_pattern p = "needs_nudge" ∨
      state_of_pattern p = "afk" ∨ state_of_pattern p = "working") ∧
    ∀ summaries : List (String × Summary),
      (create_behavior_comparison summaries).current_state =
        state_of_pattern (getPattern summaries "5_minutes") := by
  refine ⟨?_, ?_, ?_, ?_, ?_, ?_, ?_⟩
  · intro h; subst h; rfl
  · intro h; subst h; rfl
  · intro h; subst h; rfl
  · intro h; subst h; rfl
  · intro h1 h2 h3 h4; simp [state_of_pattern, h1, h2, h3, h4]
  · unfold state_of_pattern; split_ifs <;> simp
  · intro summaries; rfl

/-- C3 witness: an unrecognised pattern maps to working, `"away"` maps
to afk. -/
theorem C3_witness :
    state_of_pattern "garbage" = "working" ∧ state_of_pattern "away" = "afk" := by
  refine ⟨?_, ?_⟩
  · exact (C3_current_state_total_mapping "garbage").2.2.2.2.1
      (by decide) (by decide) (by decide) (by decide)
  · exact (C3_current_state_total_mapping "away").2.2.2.1 rfl

/-- C5 counterexample: a summaries map whose 5-minute window carries two
focus sessions and whose 30-minute window carries one.  The code (no
flooring, `older = 1 - 2 = -1 ≠ 0`) answers maintaining_focus, while the
claim's floored rule (`older = max 0 (1-2) = 0`, recent > 0) demands
entering_focus. -/
theorem C5_counterexample :
    (create_behavior_comparison
      [("5_minutes", ⟨false, 33, [("vim", 16), ("code", 17)], [], none,
          [⟨"vim", 16, some 0, "productive_coding"⟩,
           ⟨"code", 17, some 960, "productive_coding"⟩], [], 1, "focused_work"⟩),
       ("30_minutes", ⟨false, 33, [("vim", 33)], [], none,
          [⟨"vim", 33, some 0, "productive_coding"⟩], [], 0, "focused_work"⟩)]).focus_trend
      = "maintaining_focus" ∧
    focusTrendFloorSpec
      (getFocusCount
        [("5_minutes", ⟨false, 33, [("vim", 16), ("code", 17)], [], none,
            [⟨"vim", 16, some 0, "productive_coding"⟩,
             ⟨"code", 17, some 960, "productive_coding"⟩], [], 1, "focused_work"⟩),
         ("30_minutes", ⟨false, 33, [("vim", 33)], [], none,
            [⟨"vim", 33, some 0, "productive_coding"⟩], [], 0, "focused_work"⟩)]
        "5_minutes")
      (getFocusCount
        [("5_minutes", ⟨false, 33, [("vim", 16), ("code", 17)], [], none,
            [⟨"vim", 16, some 0, "productive_coding"⟩,
             ⟨"code", 17, some 960, "productive_coding"⟩], [], 1, "focused_work"⟩),
         ("30_minutes", ⟨false, 33, [("vim", 33)], [], none,
            [⟨"vim", 33, some 0, "productive_coding"⟩], [], 0, "focused_work"⟩)]
        "30_minutes")
      = "entering_focus" := by
  constructor
  · rfl
  · rfl

/-- C5 (amended): focus_trend is computed from recent = the 5-minute
focus-session count and older = the 30-minute count minus recent as a
plain integer, with no flooring at 0: entering_focus iff recent>0 and
older=0; losing_focus iff recent=0 and older>0; maintaining_focus iff
recent>0 and older≠0; no_focus iff recent=0 and older≤0. -/
theorem C5_focus_trend_amended (summaries : List (String × Summary)) :
    (getFocusCount summaries "5_minutes" > 0 →
      (getFocusCount summaries "30_minutes" : ℤ) -
        (getFocusCount summaries "5_minutes" : ℤ) = 0 →
      (create_behavior_comparison summaries).focus_trend = "entering_focus") ∧
    (getFocusCount summaries "5_minutes" = 0 →
      (getFocusCount summaries "30_minutes" : ℤ) -
        (getFocusCount summaries "5_minutes" : ℤ) > 0 →
      (create_behavior_comparison summaries).focus_trend = "losing_focus") ∧
    (getFocusCount summaries "5_minutes" > 0 →
      (getFocusCount summaries "30_minutes" : ℤ) -
        (getFocusCount summaries "5_minutes" : ℤ) ≠ 0 →
      (create_behavior_comparison summaries).focus_trend = "maintaining_focus") ∧
    (getFocusCount summaries "5_minutes" = 0 →
      (getFocusCount summaries "30_minutes" : ℤ) -
        (getFocusCount summaries "5_minutes" : ℤ) ≤ 0 →
      (create_behavior_comparison summaries).focus_trend = "no_focus") := by
  refine ⟨?_, ?_, ?_, ?_⟩ <;> intro h1 h2 <;>
    simp only [create_behavior_comparison, focus_trend_calc] <;>
    split_ifs <;> first | rfl | omega

/-- C5 witness: one focus session in each window (recent = 1,
older = 0). -/
theorem C5_witness :
    (create_behavior_comparison
      [("5_minutes", ⟨false, 16, [("vim", 16)], [], none,
          [⟨"vim", 16, some 0, "productive_coding"⟩], [], 0, "focused_work"⟩),
       ("30_minutes", ⟨false, 16, [("vim", 16)], [], none,
          [⟨"vim", 16, some 0, "productive_coding"⟩], [], 0, "focused_work"⟩)]).focus_trend
      = "entering_focus" := by
  exact (C5_focus_trend_amended _).1 (by decide) (by decide)

/-- C8: re-running the summarisation and comparison pipeline on the same
raw multi-timeframe input yields identical output — the embedded
pipeline is a total function of its input, with no clock reads or
I/O. -/
theorem C8_pipeline_idempotent (data : List (String × TimeframeData)) :
    filter_and_summarize_data data = filter_and_summarize_data data ∧
    create_behavior_comparison (filter_and_summarize_data data) =
      create_behavior_comparison (filter_and_summarize_data data) :=
  ⟨rfl, rfl⟩

/-- C9 counterexample: `should_intervene` is not a function of
(state, mode, last-intervention timestamp, cooldown table) alone — the
internal wall-clock reading changes the answer: with mode=coach,
state=working, last_intervention=0, the decision is false at clock
reading 0 (elapsed 0 < 15) and true at clock reading 20. -/
theorem C9_counterexample :
    should_intervene "coach" "working" 0 0 = false ∧
    should_intervene "coach" "working" 20 0 = true := by
  constructor <;>
    norm_num +decide [should_intervene, dictGetD, intervention_cooldown, List.find?]

/-- C9 (amended): the decision is a pure deterministic function of
(state, mode, the wall-clock time read inside `should_intervene`, the
last-intervention timestamp, cooldown table); the scheduler itself
mutates nothing, and the caller (`check_activity`) resets
`last_intervention` to the current time exactly on an intervene
outcome. -/
theorem C9_scheduler_mutation_amended (mode state : String) (now last : ℚ) :
    (check_activity_last mode state now last =
      if should_intervene mode state now last then now else last) ∧
    (should_intervene mode state now last = false →
      check_activity_last mode state now last = last) ∧
    (should_intervene mode state now last = true →
      check_activity_last mode state now last = now) := by
  refine ⟨rfl, ?_, ?_⟩ <;> intro h <;> simp [check_activity_last, h]

/-- C9 witness: below cooldown nothing is mutated. -/
theorem C9_witness :
    check_activity_last "coach" "working" 0 0 = 0 := by
  exact (C9_scheduler_mutation_amended "coach" "working" 0 0).2.1
    (by norm_num +decide [should_intervene, dictGetD, intervention_cooldown, List.find?])

/-! Invariant machinery for the window-event grouping loop. -/

theorem durTotal_cons (k : String) (v : ℚ) (l : List (String × ℚ)) :
    durTotal ((k, v) :: l) = v + durTotal l := by
  simp [durTotal]

theorem durTotal_bumpDur (l : List (String × ℚ)) (k : String) (v : ℚ) :
    durTotal (bumpDur l k v) = durTotal l + v := by
  induction l with
  | nil => simp [bumpDur, durTotal]
  | cons p t ih =>
      obtain ⟨k0, v0⟩ := p
      by_cases h : k0 = k
      · simp only [bumpDur, if_pos h, durTotal_cons]
        ring
      · simp only [bumpDur, if_neg h, durTotal_cons, ih]
        ring

theorem winInv_init : WinInv initWinState := by
  refine ⟨le_refl 0, ?_, ?_⟩
  · intro a ha
    simp [initWinState] at ha
  · intro h
    simp [initWinState] at h

theorem winInv_step (s : WinState) (e : WindowEvent) (h : WinInv s) :
    WinInv (winStep s e) := by
  obtain ⟨h0, h1, h2⟩ := h
  by_cases hd : e.duration / 60 < 0.05
  · simpa [winStep, hd] using ⟨h0, h1, h2⟩
  · have hdpos : (0 : ℚ) < e.duration / 60 := by
      have h5 : (0.05 : ℚ) ≤ e.duration / 60 := not_lt.mp hd
      linarith
    have hfinal :
        ∀ dt : ℚ, durTotal s.app_durations ≤ dt →
          ((match s.current_app with
            | some prev =>
                if prev ≠ "" ∧ s.session_duration ≥ focus_threshold_minutes then
                  s.focus_sessions ++
                    [⟨prev, s.session_duration, s.session_start, categorize_app prev⟩]
                else s.focus_sessions
            | none => s.focus_sessions) ≠ [] →
            focus_threshold_minutes ≤ dt) := by
      intro dt hdt
      cases hsc : s.current_app with
      | none =>
          intro hne
          exact le_trans (h2 hne) hdt
      | some prev =>
          dsimp only
          by_cases hem : prev ≠ "" ∧ s.session_duration ≥ focus_threshold_minutes
          · intro _
            have hs1 := h1 prev hsc hem.1
            have hs2 := hem.2
            linarith
          · rw [if_neg hem]
            intro hne
            exact le_trans (h2 hne) hdt
    by_cases happ : (lowerStr e.app) = ""
    · have hdur2 :
          (if (lowerStr e.app) ≠ "" then bumpDur s.app_durations (lowerStr e.app) (e.duration / 60)
           else s.app_durations) = s.app_durations := by
        simp [happ]
      by_cases hc : s.current_app ≠ some (lowerStr e.app)
      · simp only [winStep, if_neg hd, hdur2, if_pos hc]
        refine ⟨h0, ?_, ?_⟩
        · intro a ha hane
          simp only at ha
          obtain rfl : (lowerStr e.app) = a := by injection ha
          exact absurd happ hane
        · exact hfinal _ (le_refl _)
      · simp only [winStep, if_neg hd, hdur2, if_neg hc]
        push_neg at hc
        refine ⟨h0, ?_, ?_⟩
        · intro a ha hane
          simp only at ha
          rw [hc] at ha
          obtain rfl : (lowerStr e.app) = a := by injection ha
          exact absurd happ hane
        · exact h2
    · have hdur2 :
          (if (lowerStr e.app) ≠ "" then bumpDur s.app_durations (lowerStr e.app) (e.duration / 60)
           else s.app_durations) = bumpDur s.app_durations (lowerStr e.app) (e.duration / 60) := by
        simp [happ]
      have hdt : durTotal (bumpDur s.app_durations (lowerStr e.app) (e.duration / 60)) =
          durTotal s.app_durations + e.duration / 60 :=
        durTotal_bumpDur _ _ _
      by_cases hc : s.current_app ≠ some (lowerStr e.app)
      · simp only [winStep, if_neg hd, hdur2, if_pos hc]
        refine ⟨?_, ?_, ?_⟩
        · rw [hdt]; linarith
        · intro a ha hane
          simp only at ha
          rw [hdt]
          linarith
        · rw [hdt]
          exact hfinal _ (by linarith)
      · simp only [winStep, if_neg hd, hdur2, if_neg hc]
        push_neg at hc
        refine ⟨?_, ?_, ?_⟩
        · rw [hdt]; linarith
        · intro a ha hane
          simp only at ha
          rw [hdt]
          have := h1 a ha hane
          linarith
        · intro hne
          rw [hdt]
          have := h2 hne
          linarith

theorem winInv_foldl (es : List WindowEvent) (s : WinState) (h : WinInv s) :
    WinInv (es.foldl winStep s) := by
  induction es generalizing s with
  | nil => exact h
  | cons e t ih =>
      simp only [List.foldl_cons]
      exact ih _ (winInv_step s e h)

/-- Validity of the summariser's output: active time is nonnegative, and
once a focus session exists the active time reached the focus
threshold. -/
theorem summarize_sorted_valid (es : List WindowEvent) :
    0 ≤ (summarize_sorted_window_events es).active_time_minutes ∧
    ((summarize_sorted_window_events es).focus_sessions ≠ [] →
      focus_threshold_minutes ≤ (summarize_sorted_window_events es).active_time_minutes) := by
  obtain ⟨h0, h1, h2⟩ := winInv_foldl es initWinState winInv_init
  simp only [summarize_sorted_window_events]
  cases hca : (es.foldl winStep initWinState).current_app with
  | none =>
      simp only [hca]
      exact ⟨h0, h2⟩
  | some prev =>
      by_cases hem : prev ≠ "" ∧
          (es.foldl winStep initWinState).session_duration ≥ focus_threshold_minutes
      · simp only [hca, if_pos hem]
        refine ⟨h0, fun _ => ?_⟩
        have hs1 := h1 prev hca hem.1
        have hs2 := hem.2
        linarith
      · simp only [hca, if_neg hem]
        exact ⟨h0, h2⟩

theorem summarize_window_events_valid (es : List WindowEvent) :
    0 ≤ (summarize_window_events es).active_time_minutes ∧
    ((summarize_window_events es).focus_sessions ≠ [] →
      focus_threshold_minutes ≤ (summarize_window_events es).active_time_minutes) :=
  summarize_sorted_valid (es.mergeSort tsLeB)

/-- `_determine_behavior_pattern` agrees with the claim's first-match
rule on every summary whose active time is nonnegative and reaches the
focus threshold whenever a focus session exists (as every summary the
pipeline builds does), and its result is always one of the six
patterns. -/
theorem determine_eq_spec (s : Summary)
    (hnn : 0 ≤ s.active_time_minutes)
    (hfocus : s.focus_sessions ≠ [] → 0 < s.active_time_minutes) :
    determine_behavior_pattern s =
      behaviorPatternSpec s.is_afk s.active_time_minutes s.focus_sessions.length
        s.app_switches (distraction_minutes s.distractions) := by
  by_cases hafk : s.is_afk
  · simp [determine_behavior_pattern, behaviorPatternSpec, hafk]
  · by_cases hz : s.active_time_minutes = 0
    · have hfe : s.focus_sessions = [] := by
        by_contra hne
        have := hfocus hne
        rw [hz] at this
        exact lt_irrefl 0 this
      have hnpos : ¬ s.active_time_minutes > 0 := by rw [hz]; exact lt_irrefl 0
      simp only [determine_behavior_pattern, behaviorPatternSpec, hafk, hz,
        Bool.false_eq_true, if_false, if_pos rfl, if_neg hnpos, hfe,
        List.length_nil]
      norm_num
    · have hpos : 0 < s.active_time_minutes := lt_of_le_of_ne hnn (Ne.symm hz)
      simp only [determine_behavior_pattern, behaviorPatternSpec, hafk,
        Bool.false_eq_true, if_false, if_neg hz, if_pos hpos]

theorem summarize_timeframe_pre_valid (d : TimeframeData) :
    0 ≤ (summarize_timeframe_pre d).active_time_minutes ∧
    ((summarize_timeframe_pre d).focus_sessions ≠ [] →
      0 < (summarize_timeframe_pre d).active_time_minutes) := by
  cases hw : d.window with
  | nil =>
      have hact : (summarize_timeframe_pre d).active_time_minutes = 0 := by
        cases hb : d.web <;> simp [summarize_timeframe_pre, hw, hb]
      have hfoc : (summarize_timeframe_pre d).focus_sessions = [] := by
        cases hb : d.web <;> simp [summarize_timeframe_pre, hw, hb]
      rw [hact, hfoc]
      exact ⟨le_refl 0, fun hne => absurd rfl hne⟩
  | cons x xs =>
      have hv := summarize_window_events_valid (x :: xs)
      have h15 : (0 : ℚ) < focus_threshold_minutes := by
        norm_num [focus_threshold_minutes]
      have hact : (summarize_timeframe_pre d).active_time_minutes =
          (summarize_window_events (x :: xs)).active_time_minutes := by
        cases hb : d.web <;> simp [summarize_timeframe_pre, hw, hb]
      have hfoc : (summarize_timeframe_pre d).focus_sessions =
          (summarize_window_events (x :: xs)).focus_sessions := by
        cases hb : d.web <;> simp [summarize_timeframe_pre, hw, hb]
      rw [hact, hfoc]
      exact ⟨hv.1, fun hne => lt_of_lt_of_le h15 (hv.2 hne)⟩

theorem determine_total (s : Summary) :
    determine_behavior_pattern s ∈
      (["away", "focused_work", "heavily_distracted", "context_switching",
        "light_activity", "normal_work"] : List String) := by
  simp only [determine_behavior_pattern]
  split_ifs <;> simp

/-- C2: for every raw timeframe input, the summary's behaviour pattern
follows the claim's first-match-wins rule evaluated on the summary's own
is_afk flag, active minutes, focus-session count, transition count and
total distraction minutes (with the zero-active-minutes short-circuit to
light_activity), and is always exactly one of the six patterns. -/
theorem C2_behavior_pattern_first_match (d : TimeframeData) :
    (summarize_timeframe d).behavior_pattern =
      behaviorPatternSpec (summarize_timeframe d).is_afk
        (summarize_timeframe d).active_time_minutes
        (summarize_timeframe d).focus_sessions.length
        (summarize_timeframe d).app_switches
        (distraction_minutes (summarize_timeframe d).distractions) ∧
    (summarize_timeframe d).behavior_pattern ∈
      (["away", "focused_work", "heavily_distracted", "context_switching",
        "light_activity", "normal_work"] : List String) := by
  obtain ⟨h0, hf⟩ := summarize_timeframe_pre_valid d
  constructor
  · exact determine_eq_spec (summarize_timeframe_pre d) h0 hf
  · exact determine_total (summarize_timeframe_pre d)

/-! Distraction-episode structure (claim C4). -/

theorem keys_bumpDur (l : List (String × ℚ)) (k : String) (v : ℚ) :
    (bumpDur l k v).map Prod.fst =
      if k ∈ l.map Prod.fst then l.map Prod.fst else l.map Prod.fst ++ [k] := by
  induction l with
  | nil => simp [bumpDur]
  | cons p t ih =>
      obtain ⟨k0, v0⟩ := p
      by_cases h : k0 = k
      · subst h
        simp [bumpDur]
      · have hkk : ¬ k = k0 := fun hh => h hh.symm
        simp only [bumpDur, if_neg h, List.map_cons, ih]
        by_cases hm : k ∈ t.map Prod.fst
        · simp [hm, hkk]
        · simp [hm, hkk]

theorem nodup_keys_bumpDur (l : List (String × ℚ)) (k : String) (v : ℚ)
    (h : (l.map Prod.fst).Nodup) : ((bumpDur l k v).map Prod.fst).Nodup := by
  rw [keys_bumpDur]
  by_cases hm : k ∈ l.map Prod.fst
  · simp [hm, h]
  · simp [hm, List.nodup_append, h]

theorem winStep_app_durations (s : WinState) (e : WindowEvent) :
    (winStep s e).app_durations = s.app_durations ∨
    (winStep s e).app_durations =
      bumpDur s.app_durations (lowerStr e.app) (e.duration / 60) := by
  by_cases hd : e.duration / 60 < 0.05
  · left; simp [winStep, hd]
  · by_cases happ : lowerStr e.app = ""
    · left
      simp [winStep, hd, happ]
      split_ifs <;> rfl
    · right
      simp [winStep, hd, happ]
      split_ifs <;> rfl

theorem foldl_keys_nodup (es : List WindowEvent) :
    ∀ s : WinState, (s.app_durations.map Prod.fst).Nodup →
      (((es.foldl winStep s).app_durations).map Prod.fst).Nodup := by
  induction es with
  | nil => exact fun s h => h
  | cons e t ih =>
      intro s h
      simp only [List.foldl_cons]
      apply ih
      rcases winStep_app_durations s e with heq | heq
      · rw [heq]; exact h
      · rw [heq]; exact nodup_keys_bumpDur _ _ _ h

theorem summarize_sorted_app_durations (es : List WindowEvent) :
    (summarize_sorted_window_events es).app_durations =
      (es.foldl winStep initWinState).app_durations := by
  simp only [summarize_sorted_window_events]
  cases hca : (es.foldl winStep initWinState).current_app with
  | none => rfl
  | some prev =>
      dsimp only
      split_ifs <;> rfl

theorem webStep_distractions_eq (bes : List WebEvent) :
    ∀ s : WebState, (bes.foldl webStep s).distractions =
      s.distractions ++ webDistractionsPerEvent bes := by
  induction bes with
  | nil => intro s; simp [webDistractionsPerEvent]
  | cons e t ih =>
      intro s
      simp only [List.foldl_cons, ih]
      by_cases hurl : e.url = ""
      · have hstep : webStep s e = s := by simp [webStep, hurl]
        rw [hstep]
        simp [webDistractionsPerEvent, List.filter_cons, hurl]
      · by_cases hb : is_distraction_domain (extract_domain e.url) = true
        · by_cases hdur : (1 : ℚ) < e.duration / 60
          · have hstep : (webStep s e).distractions =
                s.distractions ++ [⟨"web", extract_domain e.url, e.duration / 60,
                  categorize_domain (extract_domain e.url)⟩] := by
              simp [webStep, hurl, hb, hdur]
            rw [hstep]
            simp [webDistractionsPerEvent, List.filter_cons, hurl, hb, hdur]
          · have hstep : (webStep s e).distractions = s.distractions := by
              simp [webStep, hurl, hb, hdur]
            rw [hstep]
            simp [webDistractionsPerEvent, List.filter_cons, hurl, hb, hdur]
        · have hbf : is_distraction_domain (extract_domain e.url) = false := by
            simpa using hb
          have hstep : (webStep s e).distractions = s.distractions := by
            simp [webStep, hurl, hbf]
          rw [hstep]
          simp [webDistractionsPerEvent, List.filter_cons, hurl, hbf]

theorem summarize_web_distractions (bes : List WebEvent) :
    (summarize_web_events bes).distractions = webDistractionsPerEvent bes := by
  simpa [summarize_web_events] using webStep_distractions_eq bes ⟨[], [], []⟩

/-- C4 counterexample: web distraction episodes are per event, not per
entity.  Two 2-minute visits to youtube.com yield two episodes for the
same entity; two 42-second visits (total 1.4 min, above the 1-minute
floor) yield none, although the entity's total window duration exceeds
the minimum. -/
theorem C4_counterexample :
    ((summarize_web_events
        [⟨0, 120, "https://youtube.com/watch1", ""⟩,
         ⟨2, 120, "https://youtube.com/watch2", ""⟩]).distractions.map
      Distraction.name) = ["youtube.com", "youtube.com"] ∧
    (summarize_web_events
        [⟨0, 42, "https://youtube.com/watch1", ""⟩,
         ⟨2, 42, "https://youtube.com/watch2", ""⟩]).distractions = [] ∧
    durTotal (summarize_web_events
        [⟨0, 42, "https://youtube.com/watch1", ""⟩,
         ⟨2, 42, "https://youtube.com/watch2", ""⟩]).domain_durations > 1 := by
  have hdom1 : extract_domain "https://youtube.com/watch1" = "youtube.com" := by decide
  have hdom2 : extract_domain "https://youtube.com/watch2" = "youtube.com" := by decide
  have hdd : is_distraction_domain "youtube.com" = true := by decide
  refine ⟨?_, ?_, ?_⟩
  · rw [summarize_web_distractions]
    norm_num +decide [webDistractionsPerEvent, List.filter_cons, hdom1, hdom2, hdd]
  · rw [summarize_web_distractions]
    norm_num +decide [webDistractionsPerEvent, List.filter_cons, hdom1, hdom2, hdd]
  · norm_num +decide [summarize_web_events, webStep, bumpDur, durTotal,
      hdom1, hdom2, hdd]

/-- C4 (amended): app-kind episodes are per entity — the entity table
has pairwise-distinct names, an app entity appears exactly when its
*total* window duration exceeds 2 minutes and it matches the distraction
taxonomy, and no app entity produces two episodes.  Web-kind episodes,
however, are emitted per individual event: one episode for every web
event whose own duration exceeds 1 minute on a taxonomy-matching domain,
so a web entity may produce several episodes (or none although its total
exceeds the minimum). -/
theorem C4_distraction_episodes (wes : List WindowEvent) (bes : List WebEvent) :
    ((summarize_window_events wes).app_durations.map Prod.fst).Nodup ∧
    (summarize_window_events wes).distractions =
      ((summarize_window_events wes).app_durations.filter
        (fun p => is_distraction_app p.1 && decide (p.2 > 2))).map
        (fun p => ⟨"app", p.1, p.2, categorize_app p.1⟩) ∧
    ((summarize_window_events wes).distractions.map Distraction.name).Nodup ∧
    (summarize_web_events bes).distractions = webDistractionsPerEvent bes := by
  have hkeys : ((summarize_window_events wes).app_durations.map Prod.fst).Nodup := by
    rw [summarize_window_events, summarize_sorted_app_durations]
    exact foldl_keys_nodup _ initWinState (by simp [initWinState])
  have hname : (summarize_window_events wes).distractions.map Distraction.name =
      ((summarize_window_events wes).app_durations.filter
        (fun p => is_distraction_app p.1 && decide (p.2 > 2))).map Prod.fst := by
    rw [show (summarize_window_events wes).distractions =
        ((summarize_window_events wes).app_durations.filter
          (fun p => is_distraction_app p.1 && decide (p.2 > 2))).map
          (fun p => (⟨"app", p.1, p.2, categorize_app p.1⟩ : Distraction)) from rfl,
      List.map_map]
    rfl
  refine ⟨hkeys, rfl, ?_, summarize_web_distractions bes⟩
  rw [hname]
  exact List.Nodup.sublist (List.Sublist.map _ (List.filter_sublist _)) hkeys

/-! Short-event exclusion (claim C10). -/

theorem winStep_skip (s : WinState) (e : WindowEvent)
    (h : e.duration / 60 < 0.05) : winStep s e = s := by
  simp [winStep, h]

theorem foldl_winStep_filter (es : List WindowEvent) :
    ∀ s : WinState, es.foldl winStep s = (es.filter aboveFloorB).foldl winStep s := by
  induction es with
  | nil => intro s; rfl
  | cons e t ih =>
      intro s
      by_cases hd : e.duration / 60 < 0.05
      · have hb : aboveFloorB e = false := by simp [aboveFloorB, hd]
        simp only [List.foldl_cons, List.filter_cons, hb, winStep_skip s e hd,
          Bool.false_eq_true, if_false]
        exact ih s
      · have hb : aboveFloorB e = true := by simp [aboveFloorB, hd]
        simp only [List.foldl_cons, List.filter_cons, hb, if_pos trivial, if_true]
        exact ih (winStep s e)

theorem foldl_winStep_all_short (es : List WindowEvent)
    (h : ∀ e ∈ es, e.duration / 60 < 0.05) : ∀ s : WinState, es.foldl winStep s = s := by
  induction es with
  | nil => intro s; rfl
  | cons e t ih =>
      intro s
      simp only [List.foldl_cons, winStep_skip s e (h e (List.mem_cons_self e t))]
      exact ih (fun x hx => h x (List.mem_cons_of_mem e hx)) s

/-- Sortedness by timestamp lets the in-place sort be dropped. -/
theorem summarize_of_sorted (es : List WindowEvent)
    (h : List.Pairwise (fun x y => x.timestamp ≤ y.timestamp) es) :
    summarize_window_events es = summarize_sorted_window_events es := by
  rw [summarize_window_events, List.mergeSort_of_sorted]
  exact h.imp (fun hxy => by simp [tsLeB, hxy])

/-- C10: events below the 3-second (0.05-minute) floor contribute to no
aggregate: deleting them from a (time-ordered) event list leaves the
whole summary unchanged, and a window of only sub-floor events produces
the empty summary (0 active minutes, no entity durations, no titles, no
focus sessions, no distractions, 0 switches). -/
theorem C10_short_events_excluded (es : List WindowEvent) :
    (List.Pairwise (fun x y => x.timestamp ≤ y.timestamp) es →
      summarize_window_events es = summarize_window_events (es.filter aboveFloorB)) ∧
    ((∀ e ∈ es, e.duration / 60 < 0.05) →
      summarize_window_events es = ⟨0, [], [], [], [], 0⟩) := by
  constructor
  · intro hs
    rw [summarize_of_sorted es hs,
      summarize_of_sorted (es.filter aboveFloorB) (hs.filter _)]
    simp only [summarize_sorted_window_events, ← foldl_winStep_filter]
  · intro h
    have hall : ∀ e ∈ es.mergeSort tsLeB, e.duration / 60 < 0.05 := by
      intro e he
      exact h e ((List.mergeSort_perm es tsLeB).mem_iff.mp he)
    show summarize_sorted_window_events (es.mergeSort tsLeB) = _
    simp only [summarize_sorted_window_events,
      foldl_winStep_all_short _ hall initWinState]
    rfl

/-- C10 witness: two sub-3-second events produce the empty summary, and
dropping a sub-floor event changes nothing. -/
theorem C10_witness :
    summarize_window_events [⟨0, 2, "vim", ""⟩, ⟨1, 1, "code", ""⟩] =
      ⟨0, [], [], [], [], 0⟩ ∧
    summarize_window_events [⟨0, 2, "vim", ""⟩] =
      summarize_window_events ([⟨0, 2, "vim", ""⟩].filter aboveFloorB) := by
  constructor
  · refine (C10_short_events_excluded _).2 ?_
    intro e he
    rcases List.mem_cons.mp he with rfl | he2
    · norm_num
    · rcases List.mem_cons.mp he2 with rfl | he3
      · norm_num
      · simp at he3
  · exact (C10_short_events_excluded _).1 (by simp)

/-! Focus-session run lemmas (claim C6). -/

theorem winStep_same_app (s : WinState) (e : WindowEvent) (a : String)
    (ha : a ≠ "") (he_app : lowerStr e.app = a)
    (he_dur : 0.05 ≤ e.duration / 60) (hc : s.current_app = some a) :
    (winStep s e).current_app = some a ∧
    (winStep s e).session_duration = s.session_duration + e.duration / 60 ∧
    (winStep s e).focus_sessions = s.focus_sessions ∧
    (winStep s e).app_switches = s.app_switches ∧
    (winStep s e).session_start = s.session_start ∧
    durTotal (winStep s e).app_durations = durTotal s.app_durations + e.duration / 60 := by
  have hnd : ¬ e.duration / 60 < 0.05 := not_lt.mpr he_dur
  have hcond : ¬ s.current_app ≠ some (lowerStr e.app) := by
    rw [he_app, hc]
    simp
  refine ⟨?_, ?_, ?_, ?_, ?_, ?_⟩ <;>
    simp [winStep, hnd, hcond, he_app, ha, hc, durTotal_bumpDur]

theorem winStep_change_app (s : WinState) (e : WindowEvent) (a : String)
    (ha : a ≠ "") (he_app : lowerStr e.app = a)
    (he_dur : 0.05 ≤ e.duration / 60) (hc : s.current_app ≠ some a) :
    (winStep s e).current_app = some a ∧
    (winStep s e).session_duration = e.duration / 60 ∧
    (winStep s e).session_start = some e.timestamp ∧
    (winStep s e).focus_sessions =
      (match s.current_app with
       | some prev =>
           if prev ≠ "" ∧ s.session_duration ≥ focus_threshold_minutes then
             s.focus_sessions ++
               [⟨prev, s.session_duration, s.session_start, categorize_app prev⟩]
           else s.focus_sessions
       | none => s.focus_sessions) ∧
    (winStep s e).app_switches =
      (match s.current_app with
       | some _ => s.app_switches + 1
       | none => s.app_switches) ∧
    durTotal (winStep s e).app_durations = durTotal s.app_durations + e.duration / 60 := by
  have hnd : ¬ e.duration / 60 < 0.05 := not_lt.mpr he_dur
  refine ⟨?_, ?_, ?_, ?_, ?_, ?_⟩ <;>
    simp [winStep, hnd, he_app, ha, hc, durTotal_bumpDur]

theorem foldl_run (a : String) (ha : a ≠ "") :
    ∀ (es : List WindowEvent), (∀ e ∈ es, lowerStr e.app = a) →
      (∀ e ∈ es, 0.05 ≤ e.duration / 60) →
      ∀ s : WinState, s.current_app = some a →
        (es.foldl winStep s).current_app = some a ∧
        (es.foldl winStep s).session_duration = s.session_duration + totalMinutes es ∧
        (es.foldl winStep s).focus_sessions = s.focus_sessions ∧
        (es.foldl winStep s).app_switches = s.app_switches ∧
        (es.foldl winStep s).session_start = s.session_start ∧
        durTotal (es.foldl winStep s).app_durations =
          durTotal s.app_durations + totalMinutes es := by
  intro es
  induction es with
  | nil =>
      intro _ _ s hs
      simp [totalMinutes, hs]
  | cons e t ih =>
      intro happs hdurs s hs
      obtain ⟨k1, k2, k3, k4, k5, k6⟩ :=
        winStep_same_app s e a ha (happs e (List.mem_cons_self e t))
          (hdurs e (List.mem_cons_self e t)) hs
      obtain ⟨m1, m2, m3, m4, m5, m6⟩ :=
        ih (fun x hx => happs x (List.mem_cons_of_mem e hx))
          (fun x hx => hdurs x (List.mem_cons_of_mem e hx)) (winStep s e) k1
      refine ⟨by simpa using m1, ?_, by simp [m3, k3], by simp [m4, k4],
        by simp [m5, k5], ?_⟩
      · simp only [List.foldl_cons, m2, k2, totalMinutes, List.map_cons, List.sum_cons]
        ring
      · simp only [List.foldl_cons, m6, k6, totalMinutes, List.map_cons, List.sum_cons]
        ring

theorem foldl_run_from_init (a : String) (ha : a ≠ "") (e0 : WindowEvent)
    (rest : List WindowEvent)
    (happs : ∀ e ∈ e0 :: rest, lowerStr e.app = a)
    (hdurs : ∀ e ∈ e0 :: rest, 0.05 ≤ e.duration / 60) :
    ((e0 :: rest).foldl winStep initWinState).current_app = some a ∧
    ((e0 :: rest).foldl winStep initWinState).session_duration =
      totalMinutes (e0 :: rest) ∧
    ((e0 :: rest).foldl winStep initWinState).focus_sessions = [] ∧
    ((e0 :: rest).foldl winStep initWinState).app_switches = 0 ∧
    ((e0 :: rest).foldl winStep initWinState).session_start = some e0.timestamp ∧
    durTotal ((e0 :: rest).foldl winStep initWinState).app_durations =
      totalMinutes (e0 :: rest) := by
  have hc0 : initWinState.current_app ≠ some a := by simp [initWinState]
  obtain ⟨k1, k2, k3, k4, k5, k6⟩ :=
    winStep_change_app initWinState e0 a ha (happs e0 (List.mem_cons_self e0 rest))
      (hdurs e0 (List.mem_cons_self e0 rest)) hc0
  obtain ⟨m1, m2, m3, m4, m5, m6⟩ :=
    foldl_run a ha rest (fun x hx => happs x (List.mem_cons_of_mem e0 hx))
      (fun x hx => hdurs x (List.mem_cons_of_mem e0 hx)) (winStep initWinState e0) k1
  have hfoc0 : (winStep initWinState e0).focus_sessions = [] := by
    rw [k4]; simp [initWinState]
  have hsw0 : (winStep initWinState e0).app_switches = 0 := by
    rw [k5]; simp [initWinState]
  have hdt0 : durTotal (winStep initWinState e0).app_durations = e0.duration / 60 := by
    rw [k6]; simp [initWinState, durTotal]
  refine ⟨by simpa using m1, ?_, by simp [m3, hfoc0], by simp [m4, hsw0],
    by simp [m5, k3], ?_⟩
  · simp only [List.foldl_cons, m2, k2, totalMinutes, List.map_cons, List.sum_cons]
  · simp only [List.foldl_cons, m6, hdt0, totalMinutes, List.map_cons, List.sum_cons]

/-- Final-session handling of `summarize_sorted_window_events` when the
loop ends with `current_app = some a`. -/
theorem summarize_sorted_fields (es : List WindowEvent) (a : String)
    (hc : (es.foldl winStep initWinState).current_app = some a) :
    (summarize_sorted_window_events es).app_switches =
      (es.foldl winStep initWinState).app_switches ∧
    (summarize_sorted_window_events es).active_time_minutes =
      durTotal (es.foldl winStep initWinState).app_durations ∧
    (summarize_sorted_window_events es).focus_sessions =
      (if a ≠ "" ∧ (es.foldl winStep initWinState).session_duration ≥
          focus_threshold_minutes then
        (es.foldl winStep initWinState).focus_sessions ++
          [⟨a, (es.foldl winStep initWinState).session_duration,
            (es.foldl winStep initWinState).session_start, categorize_app a⟩]
      else (es.foldl winStep initWinState).focus_sessions) := by
  simp only [summarize_sorted_window_events, hc]
  refine ⟨?_, ?_, ?_⟩ <;> (dsimp only; split_ifs <;> rfl)

theorem totalMinutes_cons (e : WindowEvent) (t : List WindowEvent) :
    totalMinutes (e :: t) = e.duration / 60 + totalMinutes t := by
  simp [totalMinutes]

/-- C6: a maximal same-entity run.  For a time-ordered window consisting
of one unbroken run on a single (truthy, lower-cased) entity, all events
at or above the 3-second floor: the transition count is 0, active time is
the run's total, and exactly one FocusSession (for that entity, of the
run's total duration, starting at the first event) is emitted iff the
total reaches the 15-minute threshold — emitted at end of sequence.
When the total is 20 minutes the behaviour pattern is focused_work and
the current state is flow (Scenario A).  When a second run on a
different entity follows, the first run's session is emitted at the
entity change and the second at end of sequence, each iff its own total
reaches the threshold, with exactly one transition counted. -/
theorem C6_focus_session_run (a : String) (e0 : WindowEvent) (rest : List WindowEvent)
    (ha : a ≠ "")
    (happs : ∀ e ∈ e0 :: rest, lowerStr e.app = a)
    (hdurs : ∀ e ∈ e0 :: rest, 0.05 ≤ e.duration / 60)
    (hsorted : List.Pairwise (fun x y => x.timestamp ≤ y.timestamp) (e0 :: rest)) :
    (summarize_window_events (e0 :: rest)).app_switches = 0 ∧
    (summarize_window_events (e0 :: rest)).active_time_minutes =
      totalMinutes (e0 :: rest) ∧
    (summarize_window_events (e0 :: rest)).focus_sessions =
      (if focus_threshold_minutes ≤ totalMinutes (e0 :: rest) then
        [⟨a, totalMinutes (e0 :: rest), some e0.timestamp, categorize_app a⟩]
      else []) ∧
    (totalMinutes (e0 :: rest) = 20 →
      (summarize_timeframe ⟨e0 :: rest, [], []⟩).behavior_pattern = "focused_work" ∧
      (create_behavior_comparison
        [("5_minutes", summarize_timeframe ⟨e0 :: rest, [], []⟩)]).current_state =
        "flow") ∧
    (∀ (b : String) (f0 : WindowEvent) (rest2 : List WindowEvent),
      b ≠ "" → ¬ a = b →
      (∀ e ∈ f0 :: rest2, lowerStr e.app = b) →
      (∀ e ∈ f0 :: rest2, 0.05 ≤ e.duration / 60) →
      List.Pairwise (fun x y => x.timestamp ≤ y.timestamp)
        ((e0 :: rest) ++ f0 :: rest2) →
      (summarize_window_events ((e0 :: rest) ++ f0 :: rest2)).focus_sessions =
        ((if focus_threshold_minutes ≤ totalMinutes (e0 :: rest) then
            [⟨a, totalMinutes (e0 :: rest), some e0.timestamp, categorize_app a⟩]
          else []) ++
         (if focus_threshold_minutes ≤ totalMinutes (f0 :: rest2) then
            [⟨b, totalMinutes (f0 :: rest2), some f0.timestamp, categorize_app b⟩]
          else [])) ∧
      (summarize_window_events ((e0 :: rest) ++ f0 :: rest2)).app_switches = 1) := by
  obtain ⟨r1, r2, r3, r4, r5, r6⟩ := foldl_run_from_init a ha e0 rest happs hdurs
  have hs := summarize_of_sorted _ hsorted
  obtain ⟨f1, f2, f3⟩ := summarize_sorted_fields (e0 :: rest) a r1
  have hsw : (summarize_window_events (e0 :: rest)).app_switches = 0 := by
    rw [hs, f1, r4]
  have hact : (summarize_window_events (e0 :: rest)).active_time_minutes =
      totalMinutes (e0 :: rest) := by
    rw [hs, f2, r6]
  have hfoc : (summarize_window_events (e0 :: rest)).focus_sessions =
      (if focus_threshold_minutes ≤ totalMinutes (e0 :: rest) then
        [⟨a, totalMinutes (e0 :: rest), some e0.timestamp, categorize_app a⟩]
      else []) := by
    rw [hs, f3, r2, r3, r5]
    simp [ha]
  refine ⟨hsw, hact, hfoc, ?_, ?_⟩
  · intro htot
    have h1520 : focus_threshold_minutes ≤ totalMinutes (e0 :: rest) := by
      rw [htot]
      norm_num [focus_threshold_minutes]
    have hfoc20 : (summarize_window_events (e0 :: rest)).focus_sessions =
        [⟨a, totalMinutes (e0 :: rest), some e0.timestamp, categorize_app a⟩] := by
      rw [hfoc, if_pos h1520]
    have hpreAfk : (summarize_timeframe_pre ⟨e0 :: rest, [], []⟩).is_afk = false := by
      simp [summarize_timeframe_pre, is_currently_afk]
    have hpreA : (summarize_timeframe_pre ⟨e0 :: rest, [], []⟩).active_time_minutes =
        (summarize_window_events (e0 :: rest)).active_time_minutes := by
      simp [summarize_timeframe_pre]
    have hpreF : (summarize_timeframe_pre ⟨e0 :: rest, [], []⟩).focus_sessions =
        (summarize_window_events (e0 :: rest)).focus_sessions := by
      simp [summarize_timeframe_pre]
    have hpreS : (summarize_timeframe_pre ⟨e0 :: rest, [], []⟩).app_switches =
        (summarize_window_events (e0 :: rest)).app_switches := by
      simp [summarize_timeframe_pre]
    have hpat : (summarize_timeframe ⟨e0 :: rest, [], []⟩).behavior_pattern =
        "focused_work" := by
      show determine_behavior_pattern (summarize_timeframe_pre ⟨e0 :: rest, [], []⟩) =
        "focused_work"
      simp only [determine_behavior_pattern, hpreAfk, hpreA, hpreF, hpreS, hsw,
        hact, htot, hfoc20]
      norm_num
    refine ⟨hpat, ?_⟩
    show state_of_pattern
      (getPattern [("5_minutes", summarize_timeframe ⟨e0 :: rest, [], []⟩)]
        "5_minutes") = "flow"
    have hget : getPattern [("5_minutes", summarize_timeframe ⟨e0 :: rest, [], []⟩)]
        "5_minutes" = "focused_work" := by
      simp [getPattern, List.find?, hpat]
    rw [hget]
    rfl
  · intro b f0 rest2 hb hab happs2 hdurs2 hsorted12
    have hs12 := summarize_of_sorted _ hsorted12
    have hcb : ((e0 :: rest).foldl winStep initWinState).current_app ≠ some b := by
      rw [r1]
      simpa using hab
    obtain ⟨c1, c2, c3, c4, c5, c6⟩ :=
      winStep_change_app ((e0 :: rest).foldl winStep initWinState) f0 b hb
        (happs2 f0 (List.mem_cons_self f0 rest2))
        (hdurs2 f0 (List.mem_cons_self f0 rest2)) hcb
    rw [r1] at c4 c5
    replace c4 : (winStep ((e0 :: rest).foldl winStep initWinState) f0).focus_sessions =
        if a ≠ "" ∧ ((e0 :: rest).foldl winStep initWinState).session_duration ≥
            focus_threshold_minutes then
          ((e0 :: rest).foldl winStep initWinState).focus_sessions ++
            [⟨a, ((e0 :: rest).foldl winStep initWinState).session_duration,
              ((e0 :: rest).foldl winStep initWinState).session_start,
              categorize_app a⟩]
        else ((e0 :: rest).foldl winStep initWinState).focus_sessions := c4
    replace c5 : (winStep ((e0 :: rest).foldl winStep initWinState) f0).app_switches =
        ((e0 :: rest).foldl winStep initWinState).app_switches + 1 := c5
    rw [r2, r3, r5] at c4
    rw [r4] at c5
    obtain ⟨m1, m2, m3, m4, m5, m6⟩ :=
      foldl_run b hb rest2 (fun x hx => happs2 x (List.mem_cons_of_mem f0 hx))
        (fun x hx => hdurs2 x (List.mem_cons_of_mem f0 hx))
        (winStep ((e0 :: rest).foldl winStep initWinState) f0) c1
    have hfold12 : ((e0 :: rest) ++ f0 :: rest2).foldl winStep initWinState =
        rest2.foldl winStep
          (winStep ((e0 :: rest).foldl winStep initWinState) f0) := by
      rw [List.foldl_append, List.foldl_cons]
    have hcur12 : (((e0 :: rest) ++ f0 :: rest2).foldl winStep
        initWinState).current_app = some b := by
      rw [hfold12]
      exact m1
    obtain ⟨g1, g2, g3⟩ := summarize_sorted_fields ((e0 :: rest) ++ f0 :: rest2) b hcur12
    constructor
    · rw [hs12, g3, hfold12, m2, c2, m3, c4, m5, c3]
      rw [totalMinutes_cons f0 rest2]
      simp only [ha, ne_eq, not_false_iff, true_and, hb]
      by_cases h2 : focus_threshold_minutes ≤ f0.duration / 60 + totalMinutes rest2
      · rw [if_pos (by simpa using h2), if_pos h2]
        by_cases h1 : focus_threshold_minutes ≤ totalMinutes (e0 :: rest)
        · rw [if_pos (by simpa using h1), if_pos h1]
          try simp
        · rw [if_neg (by simpa using h1), if_neg h1]
          try simp
      · rw [if_neg (by simpa using h2), if_neg h2]
        by_cases h1 : focus_threshold_minutes ≤ totalMinutes (e0 :: rest)
        · rw [if_pos (by simpa using h1), if_pos h1]
          try simp
        · rw [if_neg (by simpa using h1), if_neg h1]
          try simp
    · rw [hs12, g1, hfold12, m4, c5]

/-- C6 witness: a 20-minute unbroken run on "vim" (two 10-minute
events, case-insensitive entity) produces exactly one 20-minute focus
session, no transitions, focused_work, flow. -/
theorem C6_witness :
    (summarize_window_events
      [⟨0, 600, "Vim", "x"⟩, ⟨600, 600, "vim", "y"⟩]).focus_sessions =
      [⟨"vim", 20, some 0, "productive_coding"⟩] ∧
    (summarize_window_events
      [⟨0, 600, "Vim", "x"⟩, ⟨600, 600, "vim", "y"⟩]).app_switches = 0 ∧
    (summarize_timeframe
      ⟨[⟨0, 600, "Vim", "x"⟩, ⟨600, 600, "vim", "y"⟩], [], []⟩).behavior_pattern =
      "focused_work" ∧
    (create_behavior_comparison
      [("5_minutes", summarize_timeframe
        ⟨[⟨0, 600, "Vim", "x"⟩, ⟨600, 600, "vim", "y"⟩], [], []⟩)]).current_state =
      "flow" := by
  have happs : ∀ e ∈ [(⟨0, 600, "Vim", "x"⟩ : WindowEvent), ⟨600, 600, "vim", "y"⟩],
      lowerStr e.app = "vim" := by decide
  have hdurs : ∀ e ∈ [(⟨0, 600, "Vim", "x"⟩ : WindowEvent), ⟨600, 600, "vim", "y"⟩],
      (0.05 : ℚ) ≤ e.duration / 60 := by
    intro e he
    rcases List.mem_cons.mp he with rfl | he2
    · norm_num
    · rcases List.mem_cons.mp he2 with rfl | he3
      · norm_num
      · simp at he3
  have hsorted : List.Pairwise (fun x y : WindowEvent => x.timestamp ≤ y.timestamp)
      [⟨0, 600, "Vim", "x"⟩, ⟨600, 600, "vim", "y"⟩] := by
    norm_num [List.pairwise_cons]
  obtain ⟨hsw, hact, hfoc, hscen, _⟩ :=
    C6_focus_session_run "vim" ⟨0, 600, "Vim", "x"⟩ [⟨600, 600, "vim", "y"⟩]
      (by decide) happs hdurs hsorted
  have htot : totalMinutes
      [(⟨0, 600, "Vim", "x"⟩ : WindowEvent), ⟨600, 600, "vim", "y"⟩] = 20 := by
    norm_num [totalMinutes]
  obtain ⟨hpat, hstate⟩ := hscen htot
  refine ⟨?_, hsw, hpat, hstate⟩
  rw [hfoc, htot, if_pos (by norm_num [focus_threshold_minutes])]
  have hcat : categorize_app "vim" = "productive_coding" := by decide
  rw [hcat]

end CompanionCube
